import Mathlib

/-!
Verification development for the momo-scheduler core.

The definitions below are a shallow embedding of the repository's
scheduling subsystem:

* `Momo.JobScheduler.*` embeds `src/scheduler/JobScheduler.ts`.  Each public
  method of the `JobScheduler` class becomes a Lean function from an explicit
  state (the class fields) and the results of its asynchronous collaborators
  (the job repository's `findOne`, the executor's `execute`, the
  `human-interval` parser) to the produced result, successor state and the
  list of error-level log entries emitted.  JavaScript numbers that can be
  `NaN`/`undefined` are modelled explicitly (`JsNumber`, `Option`); a promise
  rejection that a method lets escape is modelled with `Except`.
* `Momo.Loop.*` is a small-step event-loop model of the interaction between
  a `setInterval` tick running `executeConcurrently` and a concurrent
  `stop()` call, used for the temporal stop-drain property.
* `Momo.MongoSchedule.*` embeds the connect/disconnect facade of
  `MongoSchedule.ts`, recording the sequence of effects performed.
* `Momo.Conn.*` embeds `connect.ts` (module-level connection bootstrap).
* `Momo.Ping.*` models `SchedulePing` (whose source is only present through
  its test file) from the specification.
-/

namespace Momo

/-- Momo's error taxonomy (`MomoError.ts`), restricted to the members the
claims mention. -/
inductive MomoError where
  | jobNotFound
  | nonParsableInterval
  deriving DecidableEq, Repr

/-- An error value passed to `logger.error`: either one of the `MomoError`
constants or an arbitrary caught exception (identified by its message). -/
inductive LoggedError where
  | momo (e : MomoError)
  | unexpected (msg : String)
  deriving DecidableEq, Repr

/-- One `logger.error(...)` call: the message and the error argument.
(`logger.debug` calls are not modelled.) -/
structure LogEntry where
  message : String
  error : LoggedError
  deriving DecidableEq, Repr

/-- The job document as `JobScheduler` reads it from the repository
(`findOne({ name })`): interval string, `concurrency`, `maxRunning` and the
cluster-wide `running` counter, which may be absent in the document
(the code reads `jobEntity.running ?? 0`). -/
structure JobEntity where
  name : String
  interval : String
  concurrency : Int
  maxRunning : Int
  running : Option Int
  deriving DecidableEq, Repr

/-- A JavaScript number as far as the interval-parsing check is concerned:
either `NaN` or an actual (integral) value.  `human-interval` returns
`number | undefined`, modelled as `Option JsNumber`. -/
inductive JsNumber where
  | nan
  | val (n : Int)
  deriving DecidableEq, Repr

/-- JavaScript truthiness of a `number | undefined`: `undefined`, `0` and
`NaN` are falsy. -/
def JsNumber.isTruthy : Option JsNumber → Bool
  | none => false
  | some .nan => false
  | some (.val n) => n != 0

/-- The `isNaN(x)` test on a defined number. -/
def JsNumber.isNaNB : Option JsNumber → Bool
  | some .nan => true
  | _ => false

/-- Execution outcome statuses from `ExecutionInfo.ts`. -/
inductive ExecutionStatus where
  | finished
  | failed
  | notFound
  | maxRunningReached
  deriving DecidableEq, Repr

/-- The `JobResult` returned by `executeOnce` / the executor. -/
structure JobResult where
  status : ExecutionStatus
  deriving DecidableEq, Repr

namespace JobScheduler

/-- The mutable fields of the `JobScheduler` class, together with two pieces
of bookkeeping that make the claims expressible: `activeTimers` is the set of
timer handles that have been armed by `setIntervalWithDelay` and not yet
cancelled by `clearInterval` (the class itself only stores the latest handle
in `jobHandle`), and `nextId` is a supply of fresh identifiers for timer
handles and pending-execution promises. -/
structure State where
  jobHandle : Option Nat
  unexpectedErrorCount : Nat
  interval : Option String
  pendingExecutions : List Nat
  activeTimers : List Nat
  nextId : Nat
  deriving DecidableEq, Repr

/-- The state of a freshly constructed `JobScheduler`. -/
def initState : State :=
  { jobHandle := none
    unexpectedErrorCount := 0
    interval := none
    pendingExecutions := []
    activeTimers := []
    nextId := 0 }

/-- The `handleUnexpectedError` method: increments `unexpectedErrorCount` by
one; the log entry it emits is produced by `unexpectedLog`. -/
def handleUnexpectedError (st : State) : State :=
  { st with unexpectedErrorCount := st.unexpectedErrorCount + 1 }

/-- The log entry emitted by `handleUnexpectedError`. -/
def unexpectedLog (msg : String) : LogEntry :=
  { message := "an unexpected error occurred while running job"
    error := .unexpected msg }

/-- The `stop()` method, run to completion: if a handle is present,
`clearInterval` cancels that timer and the `jobHandle`/`interval` fields are
cleared; then `Promise.all(pendingExecutions)` awaits every pending
execution, whose `finally` handlers remove them from the array, so on
resolution the pending list is empty. -/
def stop (st : State) : State :=
  let st1 :=
    match st.jobHandle with
    | some h =>
        { st with
            jobHandle := none
            interval := none
            activeTimers := st.activeTimers.erase h }
    | none => st
  { st1 with pendingExecutions := [] }

/-- How `start()` can finish. -/
inductive StartOutcome where
  | jobNotFound
  | threwNonParsableInterval
  | scheduled
  deriving DecidableEq, Repr

/-- The `start()` method.  `findOne` is the job document returned by the
repository; `parse` is the `human-interval` function.  `start` first awaits
`stop()`; a missing job is logged and the method returns; an interval that
is falsy or `NaN` raises `MomoError.nonParsableInterval`; otherwise the
`interval` field is set and `setIntervalWithDelay` arms a fresh timer handle
stored in `jobHandle`. -/
def start (parse : String → Option JsNumber) (findOne : Option JobEntity)
    (st : State) : StartOutcome × State × List LogEntry :=
  let st0 := stop st
  match findOne with
  | none =>
      (.jobNotFound, st0,
        [{ message := "cannot schedule job", error := .momo .jobNotFound }])
  | some jobEntity =>
      let interval := parse jobEntity.interval
      if ¬ (JsNumber.isTruthy interval) ∨ JsNumber.isNaNB interval then
        (.threwNonParsableInterval, st0, [])
      else
        let h := st0.nextId
        (.scheduled,
          { st0 with
              interval := some jobEntity.interval
              jobHandle := some h
              activeTimers := h :: st0.activeTimers
              nextId := h + 1 },
          [])

/-- The per-tick launch count computed by `executeConcurrently`:
`maxRunning > 0 ? min([concurrency, maxRunning - (running ?? 0)]) ?? concurrency
: concurrency`.  (lodash `min` of a two-element array is never `undefined`,
so the `?? concurrency` fallback is dead.) -/
def numToExecute (jobEntity : JobEntity) : Int :=
  if jobEntity.maxRunning > 0 then
    min jobEntity.concurrency (jobEntity.maxRunning - jobEntity.running.getD 0)
  else
    jobEntity.concurrency

/-- The number of executor invocations the loop
`for (let i = 0; i < numToExecute; i++)` actually launches: `numToExecute`
iterations, none when `numToExecute` is negative. -/
def launchedCount (jobEntity : JobEntity) : Nat :=
  (numToExecute jobEntity).toNat

/-- The `executeOnce()` method.  `findOne` models the awaited repository
lookup, `.error` being a rejection (caught by the `try`/`catch`); `exec`
models `jobExecutor.execute`, `.error` being a rejected promise.  The
executor's promise is returned from inside the `try` block WITHOUT `await`,
so its rejection is adopted by `executeOnce`'s own promise after the
`try`/`catch` frame is gone and is not caught: the `.error` case of `exec`
passes through as a rejection of `executeOnce`. -/
def executeOnce (findOne : Except String (Option JobEntity))
    (exec : JobEntity → Except String JobResult)
    (st : State) : Except String JobResult × State × List LogEntry :=
  match findOne with
  | .error e => (.ok { status := .failed }, handleUnexpectedError st, [unexpectedLog e])
  | .ok none =>
      (.ok { status := .notFound }, st,
        [{ message := "job not found, skip execution", error := .momo .jobNotFound }])
  | .ok (some jobEntity) => (exec jobEntity, st, [])

/-- The `executeConcurrently()` method, as one atomic step.  Returns the
number of executor invocations launched this tick.  A missing job is logged
and the tick is skipped; a rejection of `findOne` (awaited inside the
`try`) is caught by the `catch` and counted; otherwise `launchedCount`
invocations are launched and pushed onto `pendingExecutions` with fresh
identifiers (their later settlement is the separate `settle` step). -/
def executeConcurrently (findOne : Except String (Option JobEntity))
    (st : State) : Nat × State × List LogEntry :=
  match findOne with
  | .error e => (0, handleUnexpectedError st, [unexpectedLog e])
  | .ok none =>
      (0, st,
        [{ message := "job not found, skip execution", error := .momo .jobNotFound }])
  | .ok (some jobEntity) =>
      let k := launchedCount jobEntity
      let ids := (List.range k).map (st.nextId + ·)
      (k,
        { st with
            pendingExecutions := st.pendingExecutions ++ ids
            nextId := st.nextId + k },
        [])

/-- Settlement of one pending execution launched by `executeConcurrently`:
its `.catch` handler calls `handleUnexpectedError` if the executor rejected,
and its `.finally` handler removes it from `pendingExecutions`. -/
def settle (i : Nat) (err : Option String) (st : State) : State × List LogEntry :=
  let (st1, logs) :=
    match err with
    | some e => (handleUnexpectedError st, [unexpectedLog e])
    | none => (st, [])
  ({ st1 with pendingExecutions := st1.pendingExecutions.erase i }, logs)

/-- One operation on a `JobScheduler`, with the collaborator results it
consumes; used to quantify over arbitrary sequences of operations. -/
inductive Op where
  | opStart (parse : String → Option JsNumber) (findOne : Option JobEntity)
  | opStop
  | opExecuteOnce (findOne : Except String (Option JobEntity))
      (exec : JobEntity → Except String JobResult)
  | opExecuteConcurrently (findOne : Except String (Option JobEntity))
  | opSettle (i : Nat) (err : Option String)

/-- State transition of one operation. -/
def applyOp (st : State) : Op → State
  | .opStart parse findOne => (start parse findOne st).2.1
  | .opStop => stop st
  | .opExecuteOnce findOne exec => (executeOnce findOne exec st).2.1
  | .opExecuteConcurrently findOne => (executeConcurrently findOne st).2.1
  | .opSettle i err => (settle i err st).1

/-- State after a sequence of operations. -/
def applyOps (st : State) (ops : List Op) : State :=
  ops.foldl applyOp st

/-- The timer bookkeeping invariant: the armed-and-uncancelled timers are
exactly the one referenced by `jobHandle`, and handle identifiers stay below
the fresh-identifier supply. -/
def TimersOk (st : State) : Prop :=
  st.activeTimers = (match st.jobHandle with | some h => [h] | none => []) ∧
  (∀ h, st.jobHandle = some h → h < st.nextId)

/-- The state with the error counter replaced, keeping everything else. -/
def withCount (st : State) (n : Nat) : State :=
  { st with unexpectedErrorCount := n }

/-- The scheduling-relevant observables of a state: everything except the
error counter. -/
def schedView (st : State) : Option Nat × Option String × List Nat × List Nat × Nat :=
  (st.jobHandle, st.interval, st.pendingExecutions, st.activeTimers, st.nextId)

end JobScheduler

namespace Loop

/-!
A small-step model of the JavaScript event loop restricted to the pieces of
`JobScheduler` that interact during `stop()`: the `setInterval` timer firing
`executeConcurrently`, the suspension of `executeConcurrently` at
`await findOne`, the launching and settling of executor invocations, and a
single `stop()` call.  `stop()` runs synchronously up to
`await Promise.all(pendingExecutions)`: it calls `clearInterval`, snapshots
the `pendingExecutions` array (the array value passed to `Promise.all`), and
resolves once every promise in that snapshot has settled — immediately, if
the array was empty.
-/

/-- Event-loop state for one started `JobScheduler` and one `stop()` call. -/
structure LState where
  timerArmed : Bool
  ticksInFlight : Nat
  pending : List Nat
  started : List Nat
  settled : List Nat
  stopCalled : Bool
  stopAwaitSet : List Nat
  stopResolved : Bool
  nextId : Nat
  deriving DecidableEq, Repr

/-- The state right after a successful `start()`: timer armed, nothing in
flight, `stop()` not yet called. -/
def initLState : LState :=
  { timerArmed := true
    ticksInFlight := 0
    pending := []
    started := []
    settled := []
    stopCalled := false
    stopAwaitSet := []
    stopResolved := false
    nextId := 0 }

/-- One event-loop step. -/
inductive Ev where
  | tickFire
  | tickResume (k : Nat)
  | tickResumeNotFound
  | execSettle (i : Nat)
  | stopCall
  | stopResolve
  deriving DecidableEq, Repr

/-- The step function.  `none` means the event is not enabled in this state.

* `tickFire`: the interval timer fires; `executeConcurrently` starts and
  immediately suspends at `await findOne` (requires the timer not to have
  been cancelled by `clearInterval`).
* `tickResume k`: a suspended `executeConcurrently` resumes with the job
  found; its launch loop starts `k` executor invocations (`k` is the tick's
  `launchedCount`) and pushes each onto `pendingExecutions` synchronously.
* `tickResumeNotFound`: the suspended tick resumes with the job missing and
  skips the tick.
* `execSettle i`: a launched invocation settles; its `finally` handler
  removes it from `pendingExecutions`.
* `stopCall`: `stop()` is invoked: `clearInterval` disarms the timer and the
  current `pendingExecutions` array is snapshotted for `Promise.all`;
  with no pending executions `stop()` resolves at once.
* `stopResolve`: `Promise.all` of the snapshot resolves, once each of its
  members has settled. -/
def step (st : LState) : Ev → Option LState
  | .tickFire =>
      if st.timerArmed then
        some { st with ticksInFlight := st.ticksInFlight + 1 }
      else none
  | .tickResume k =>
      if st.ticksInFlight > 0 then
        let ids := (List.range k).map (st.nextId + ·)
        some { st with
                 ticksInFlight := st.ticksInFlight - 1
                 pending := st.pending ++ ids
                 started := st.started ++ ids
                 nextId := st.nextId + k }
      else none
  | .tickResumeNotFound =>
      if st.ticksInFlight > 0 then
        some { st with ticksInFlight := st.ticksInFlight - 1 }
      else none
  | .execSettle i =>
      if i ∈ st.pending then
        some { st with
                 pending := st.pending.erase i
                 settled := i :: st.settled }
      else none
  | .stopCall =>
      if !st.stopCalled then
        some { st with
                 timerArmed := false
                 stopCalled := true
                 stopAwaitSet := st.pending
                 stopResolved := st.pending.isEmpty }
      else none
  | .stopResolve =>
      if st.stopCalled && !st.stopResolved && st.stopAwaitSet.all (st.settled.contains ·) then
        some { st with stopResolved := true }
      else none

/-- Run a sequence of events from a state; `none` if any event is not
enabled where it occurs. -/
def run (st : LState) : List Ev → Option LState
  | [] => some st
  | e :: es =>
      match step st e with
      | some st1 => run st1 es
      | none => none

/-- The stop-drain invariant: once `stop()` has been called the timer is
disarmed for good, and whenever `stop()` has resolved, every execution in
the `Promise.all` snapshot has settled. -/
def Inv (st : LState) : Prop :=
  (st.stopCalled = true → st.timerArmed = false) ∧
  (st.stopResolved = true → st.stopCalled = true) ∧
  (st.stopResolved = true → st.stopAwaitSet.all (st.settled.contains ·) = true)

end Loop

namespace MongoSchedule

/-- An observable effect performed by the `MongoSchedule`
connect/disconnect facade, in the order the code awaits them. -/
inductive Effect where
  | connectDb
  | addSchedule (scheduleId : String)
  | pingStart (scheduleId : String)
  | cancelJobs
  | deleteScheduleEntry (scheduleId : String)
  | closeDb
  deriving DecidableEq, Repr

/-- The `MongoSchedule` object as far as the claims observe it. -/
structure Model where
  scheduleId : String
  deriving DecidableEq, Repr

/-- Modelled from the spec: the `SchedulePing` class is present in the
sources only through its test file.  Per the spec's state machine
("`active` → `stop()` → `draining` (delete own entry, cancel timer, await
pending)") and the test (`deleteOne({ scheduleId })` exactly once on
`stop`), stopping the ping deletes this schedule's ledger entry. -/
def schedulePingStopEffects (scheduleId : String) : List Effect :=
  [.deleteScheduleEntry scheduleId]

/-- `MongoSchedule.connect`: generates a `scheduleId` (the `uuid()` result is
the parameter `sid`), constructs the schedule with it, awaits the database
`connect`, awaits `getExecutionsRepository().addSchedule(scheduleId)`, and
starts the schedule ping — all before returning the schedule. -/
def connect (sid : String) : Model × List Effect :=
  ({ scheduleId := sid },
    [.connectDb, .addSchedule sid, .pingStart sid])

/-- `MongoSchedule.disconnect`: awaits `cancel()` (cancels all jobs), then
`schedulePing.stop()`, then closes the database connection. -/
def disconnect (m : Model) : List Effect :=
  [.cancelJobs] ++ schedulePingStopEffects m.scheduleId ++ [.closeDb]

end MongoSchedule

namespace Conn

/-- The module-level connection state behind `connect.ts`: the named
typeorm connections, a count of `createCollectionIndex` calls, and a supply
of connection identifiers. -/
structure State where
  connections : List (String × Nat)
  indexCreations : Nat
  nextConnectionId : Nat
  deriving DecidableEq, Repr

/-- The exported `connectionName` constant. -/
def connectionName : String := "momo"

/-- Modelled from the spec: `isConnected.ts` is not among the sources; per
its use in `connect` (guarding `getConnection(connectionName)`) it reports
whether the connection named `momo` exists. -/
def isConnected (st : State) : Bool :=
  (st.connections.lookup connectionName).isSome

/-- `getConnection(connectionName)`. -/
def getConnection (st : State) : Nat :=
  (st.connections.lookup connectionName).getD 0

/-- The `connect` function of `connect.ts`: if already connected it returns
the existing `momo` connection unchanged; otherwise it creates a connection
named `momo` and creates the `job_name_index` and `schedule_id_index`
collection indices. -/
def connect (st : State) : Nat × State :=
  if isConnected st then
    (getConnection st, st)
  else
    let cid := st.nextConnectionId
    (cid,
      { connections := (connectionName, cid) :: st.connections
        indexCreations := st.indexCreations + 2
        nextConnectionId := cid + 1 })

end Conn

namespace Ping

/-- Modelled from the spec: the `SchedulePing` class is present in the
sources only through its test file (`SchedulePing.spec.ts`); this namespace
models it from the specification's §4.6 loop and the test's expectations.
`Deps` carries the results of one tick's collaborator calls; `.error` is a
rejected store call. -/
structure Deps where
  isActiveSchedule : Except String Bool
  startAllJobs : Except String Unit
  ping : Except String Unit
  deleteDead : Except String Unit

/-- The ping loop's state: whether its timer is armed, whether the previous
tick observed this schedule as active (so that `startAllJobs` runs only on
the transition to active), and how many ticks have run. -/
structure State where
  timerArmed : Bool
  wasActive : Bool
  ticksRun : Nat
  deriving DecidableEq, Repr

/-- The error message logged when a tick's store access fails. -/
def pingFailedMessage : String :=
  "Pinging or cleaning the Schedules repository failed"

/-- The body of one tick, before the surrounding `try`/`catch`: check
`isActiveSchedule`; on a transition to active invoke `startAllJobs`; write
the heartbeat `ping`; delete dead ledger entries. -/
def tickBody (st : State) (d : Deps) : Except String State :=
  match d.isActiveSchedule with
  | .error e => .error e
  | .ok active =>
      match (if active && !st.wasActive then d.startAllJobs else .ok ()) with
      | .error e => .error e
      | .ok _ =>
          match d.ping with
          | .error e => .error e
          | .ok _ =>
              match d.deleteDead with
              | .error e => .error e
              | .ok _ => .ok { st with wasActive := active }

/-- One tick of the ping loop: any store error in the body is caught and
logged with `pingFailedMessage`; the timer stays armed either way and the
loop continues. -/
def tick (st : State) (d : Deps) : State × List String :=
  match tickBody st d with
  | .ok st1 => ({ st1 with ticksRun := st1.ticksRun + 1 }, [])
  | .error _ =>
      ({ st with ticksRun := st.ticksRun + 1 }, [pingFailedMessage])

/-- The ping loop over a sequence of tick inputs. -/
def loop (st : State) : List Deps → State × List String
  | [] => (st, [])
  | d :: ds =>
      ((loop (tick st d).1 ds).1,
        (tick st d).2 ++ (loop (tick st d).1 ds).2)

end Ping

/-- Event `a` occurs strictly before event `b` in the trace `tr`. -/
def precedes {α : Type} (a b : α) (tr : List α) : Prop :=
  ∃ i j, i < j ∧ tr.get? i = some a ∧ tr.get? j = some b

end Momo

open Momo Momo.JobScheduler

/-- After `stop()` the `jobHandle` field is always cleared. -/
theorem stop_jobHandle (st : State) : (stop st).jobHandle = none := by
  cases h : st.jobHandle <;> simp [stop, h]

/-- C1: for every tick of `executeConcurrently` where the job definition is
found, if `maxRunning ≤ 0` exactly `concurrency` executor invocations are
launched; otherwise the number launched equals
`min(concurrency, max(0, maxRunning − running))`; in particular when
`running ≥ maxRunning` zero invocations are launched. -/
theorem C1_launch_count (jobEntity : JobEntity) (st : State)
    (hc : 0 ≤ jobEntity.concurrency) :
    (((executeConcurrently (.ok (some jobEntity)) st).1 : Int) =
      if jobEntity.maxRunning ≤ 0 then jobEntity.concurrency
      else min jobEntity.concurrency
        (max 0 (jobEntity.maxRunning - jobEntity.running.getD 0))) ∧
    (0 < jobEntity.maxRunning → jobEntity.maxRunning ≤ jobEntity.running.getD 0 →
      (executeConcurrently (.ok (some jobEntity)) st).1 = 0) := by
  simp only [executeConcurrently, launchedCount, numToExecute]
  constructor
  · split_ifs <;> omega
  · intro h1 h2
    split_ifs <;> omega

/-- Witness for C1 at a concrete job with `concurrency = 5`, `maxRunning = 2`
and `running = 1`: one invocation is launched. -/
theorem C1_launch_count_witness :
    (((executeConcurrently (.ok (some ⟨"job", "one minute", 5, 2, some 1⟩))
        initState).1 : Int) =
      if (2 : Int) ≤ 0 then (5 : Int) else min 5 (max 0 (2 - 1))) ∧
    ((0 : Int) < 2 → (2 : Int) ≤ 1 →
      (executeConcurrently (.ok (some ⟨"job", "one minute", 5, 2, some 1⟩))
        initState).1 = 0) :=
  C1_launch_count ⟨"job", "one minute", 5, 2, some 1⟩ initState (by decide)

/-- C4: `start()` has exactly two failure modes.  A missing job definition is
logged as `jobNotFound` and `start` returns normally with no timer armed; a
present definition whose interval does not parse to a positive number (under
the parser contract that a defined, non-`NaN` result is positive) makes
`start` throw `nonParsableInterval` with no timer armed; otherwise `start`
schedules. -/
theorem C4_start_failure_modes (parse : String → Option JsNumber)
    (findOne : Option JobEntity) (st : State) :
    (findOne = none →
      (start parse findOne st).1 = .jobNotFound ∧
      (start parse findOne st).2.1.jobHandle = none ∧
      { message := "cannot schedule job", error := .momo .jobNotFound } ∈
        (start parse findOne st).2.2) ∧
    (∀ jobEntity, findOne = some jobEntity →
      (∀ n, parse jobEntity.interval = some (.val n) → 0 < n) →
      ((¬ ∃ n, 0 < n ∧ parse jobEntity.interval = some (.val n)) →
        (start parse findOne st).1 = .threwNonParsableInterval ∧
        (start parse findOne st).2.1.jobHandle = none) ∧
      ((∃ n, 0 < n ∧ parse jobEntity.interval = some (.val n)) →
        (start parse findOne st).1 = .scheduled ∧
        (start parse findOne st).2.1.jobHandle ≠ none)) := by
  constructor
  · rintro rfl
    exact ⟨rfl, stop_jobHandle st, by simp [start]⟩
  · rintro jobEntity rfl hp
    constructor
    · intro hnone
      cases hpr : parse jobEntity.interval with
      | none =>
          constructor <;>
            simp [start, hpr, JsNumber.isTruthy, JsNumber.isNaNB, stop_jobHandle]
      | some jn =>
          cases jn with
          | nan =>
              constructor <;>
                simp [start, hpr, JsNumber.isTruthy, JsNumber.isNaNB, stop_jobHandle]
          | val n =>
              exact absurd ⟨n, hp n hpr, hpr⟩ hnone
    · rintro ⟨n, hn, hpr⟩
      have hne : (n != 0) = true := by simp; omega
      constructor <;>
        simp [start, hpr, JsNumber.isTruthy, JsNumber.isNaNB, hne]

/-- Witness for C4: a missing job yields `jobNotFound` without throwing, an
unparseable interval throws `nonParsableInterval`, and a parseable one
schedules. -/
theorem C4_start_failure_modes_witness :
    (start (fun _ => some (.val 60000)) none initState).1 = .jobNotFound ∧
    (start (fun _ => none) (some ⟨"job", "every blue moon", 1, 0, none⟩)
        initState).1 = .threwNonParsableInterval ∧
    (start (fun _ => some (.val 60000)) (some ⟨"job", "one minute", 1, 0, none⟩)
        initState).1 = .scheduled := by
  refine ⟨?_, ?_, ?_⟩
  · exact ((C4_start_failure_modes (fun _ => some (.val 60000)) none initState).1
      rfl).1
  · exact (((C4_start_failure_modes (fun _ => none)
        (some ⟨"job", "every blue moon", 1, 0, none⟩) initState).2
      ⟨"job", "every blue moon", 1, 0, none⟩ rfl (by intro n h; cases h)).1
      (by rintro ⟨n, _, h⟩; cases h)).1
  · exact (((C4_start_failure_modes (fun _ => some (.val 60000))
        (some ⟨"job", "one minute", 1, 0, none⟩) initState).2
      ⟨"job", "one minute", 1, 0, none⟩ rfl
      (by intro n h; injection h with h1; injection h1 with h2; omega)).2
      ⟨60000, by omega, rfl⟩).1

/-- The timer invariant is preserved by `stop()`. -/
theorem timersOk_stop (st : State) (h : TimersOk st) : TimersOk (stop st) := by
  obtain ⟨h1, h2⟩ := h
  cases hj : st.jobHandle <;> rw [hj] at h1 <;>
    exact ⟨by simp [stop, hj, h1], by simp [stop, hj]⟩

/-- The timer invariant is preserved by `start()`, and a `start()` that
schedules leaves exactly one active timer. -/
theorem timersOk_start (parse : String → Option JsNumber)
    (findOne : Option JobEntity) (st : State) (h : TimersOk st) :
    TimersOk ((start parse findOne st).2.1) ∧
    ((start parse findOne st).1 = .scheduled →
      (start parse findOne st).2.1.activeTimers.length = 1) := by
  have h0 := timersOk_stop st h
  obtain ⟨h01, h02⟩ := h0
  rw [stop_jobHandle] at h01
  cases findOne with
  | none =>
      exact ⟨timersOk_stop st h, by intro hc; simp [start] at hc⟩
  | some jobEntity =>
      simp only [start]
      split_ifs with hcond
      · exact ⟨timersOk_stop st h, by intro hc; exact absurd hc (by decide)⟩
      · refine ⟨⟨by simp [h01], ?_⟩, by intro _; simp [h01]⟩
        intro hh hhh
        simp at hhh ⊢
        omega

/-- The timer invariant is preserved by every `JobScheduler` operation. -/
theorem timersOk_applyOp (st : State) (op : Op) (h : TimersOk st) :
    TimersOk (applyOp st op) := by
  obtain ⟨h1, h2⟩ := h
  cases op with
  | opStart parse findOne => exact (timersOk_start parse findOne st ⟨h1, h2⟩).1
  | opStop => exact timersOk_stop st ⟨h1, h2⟩
  | opExecuteOnce findOne exec =>
      cases findOne with
      | error e => exact ⟨h1, h2⟩
      | ok o => cases o with
        | none => exact ⟨h1, h2⟩
        | some jobEntity => exact ⟨h1, h2⟩
  | opExecuteConcurrently findOne =>
      cases findOne with
      | error e => exact ⟨h1, h2⟩
      | ok o => cases o with
        | none => exact ⟨h1, h2⟩
        | some jobEntity =>
            exact ⟨h1, fun hh hhh =>
              lt_of_lt_of_le (h2 hh hhh) (Nat.le_add_right _ _)⟩
  | opSettle i err => cases err with
      | some e => exact ⟨h1, h2⟩
      | none => exact ⟨h1, h2⟩

/-- C3: a started `JobScheduler` holds at most one active timer: the timer
invariant holds initially, is preserved by every operation, implies at most
one active timer, and two consecutive `start()` calls whose second one
schedules leave exactly one active timer (because `start()` first performs a
full `stop()`). -/
theorem C3_single_active_timer :
    (∀ st op, TimersOk st → TimersOk (applyOp st op)) ∧
    TimersOk initState ∧
    (∀ st, TimersOk st → st.activeTimers.length ≤ 1) ∧
    (∀ parse1 find1 parse2 find2 st, TimersOk st →
      (start parse2 find2 (start parse1 find1 st).2.1).1 = .scheduled →
      (start parse2 find2 (start parse1 find1 st).2.1).2.1.activeTimers.length
        = 1) := by
  refine ⟨fun st op h => timersOk_applyOp st op h,
    ⟨rfl, fun _ hh => nomatch hh⟩, ?_, ?_⟩
  · intro st h
    rw [h.1]
    cases st.jobHandle <;> simp
  · intro parse1 find1 parse2 find2 st h hsched
    exact (timersOk_start parse2 find2 _
      (timersOk_start parse1 find1 st h).1).2 hsched

/-- Witness for C3: starting twice from the initial state with a parseable
interval leaves exactly one active timer. -/
theorem C3_single_active_timer_witness :
    (start (fun _ => some (.val 60000)) (some ⟨"job", "one minute", 1, 0, none⟩)
      (start (fun _ => some (.val 60000)) (some ⟨"job", "one minute", 1, 0, none⟩)
        initState).2.1).2.1.activeTimers.length = 1 :=
  C3_single_active_timer.2.2.2 (fun _ => some (.val 60000))
    (some ⟨"job", "one minute", 1, 0, none⟩) (fun _ => some (.val 60000))
    (some ⟨"job", "one minute", 1, 0, none⟩) initState
    ⟨rfl, fun _ hh => nomatch hh⟩ (by decide)

/-- C5: when the job definition is absent at execution time,
`executeConcurrently` logs `jobNotFound`, launches zero invocations and
returns normally with the state unchanged; `executeOnce` logs, returns a
`JobResult` with status `notFound`, and its behaviour does not depend on the
executor at all (the executor is not invoked). -/
theorem C5_job_not_found_at_execution
    (exec1 exec2 : JobEntity → Except String JobResult) (st : State) :
    executeConcurrently (.ok none) st =
      (0, st,
        [{ message := "job not found, skip execution",
           error := .momo .jobNotFound }]) ∧
    executeOnce (.ok none) exec1 st =
      (.ok { status := .notFound }, st,
        [{ message := "job not found, skip execution",
           error := .momo .jobNotFound }]) ∧
    executeOnce (.ok none) exec1 st = executeOnce (.ok none) exec2 st :=
  ⟨rfl, rfl, rfl⟩

/-- The `stop()` method does not change the error counter. -/
theorem stop_count (st : State) :
    (stop st).unexpectedErrorCount = st.unexpectedErrorCount := by
  cases h : st.jobHandle <;> simp [stop, h]

/-- Each operation leaves the error counter unchanged or increments it by
exactly one. -/
theorem applyOp_count (st : State) (op : Op) :
    (applyOp st op).unexpectedErrorCount = st.unexpectedErrorCount ∨
    (applyOp st op).unexpectedErrorCount = st.unexpectedErrorCount + 1 := by
  cases op with
  | opStart parse findOne =>
      left
      cases findOne with
      | none => exact stop_count st
      | some je =>
          simp only [applyOp, start]
          split_ifs <;> simp [stop_count]
  | opStop => exact Or.inl (stop_count st)
  | opExecuteOnce findOne exec =>
      rcases findOne with e | o
      · exact Or.inr rfl
      · rcases o with _ | je
        · exact Or.inl rfl
        · rcases h : exec je with r | r <;> simp [applyOp, executeOnce, h]
  | opExecuteConcurrently findOne =>
      rcases findOne with e | o
      · exact Or.inr rfl
      · rcases o with _ | je
        · exact Or.inl rfl
        · exact Or.inl rfl
  | opSettle i err =>
      rcases err with _ | e
      · exact Or.inl rfl
      · exact Or.inr rfl

/-- The error counter never decreases across any sequence of operations. -/
theorem applyOps_count_le (ops : List Op) : ∀ st : State,
    st.unexpectedErrorCount ≤ (applyOps st ops).unexpectedErrorCount := by
  induction ops with
  | nil => intro st; exact le_refl _
  | cons op ops ih =>
      intro st
      have h2 := ih (applyOp st op)
      simp only [applyOps, List.foldl] at h2 ⊢
      rcases applyOp_count st op with h | h <;> omega

/-- The error counter does not influence the scheduling observables of any
operation. -/
theorem schedView_applyOp_withCount (st : State) (op : Op) (n : Nat) :
    schedView (applyOp (withCount st n) op) = schedView (applyOp st op) := by
  cases st with
  | mk jh c i p a nx =>
      cases op with
      | opStart parse findOne =>
          cases findOne with
          | none => cases jh <;> rfl
          | some je =>
              cases jh <;>
                (simp only [applyOp, start, stop, withCount]; split_ifs <;> rfl)
      | opStop => cases jh <;> rfl
      | opExecuteOnce findOne exec =>
          rcases findOne with e | o
          · rfl
          · rcases o with _ | je
            · rfl
            · rcases h : exec je with r | r <;>
                simp [applyOp, executeOnce, withCount, schedView, h]
      | opExecuteConcurrently findOne =>
          rcases findOne with e | o
          · rfl
          · rcases o with _ | je <;> rfl
      | opSettle i err => rcases err with _ | e <;> rfl

/-- The outcome of `start()` does not depend on the error counter. -/
theorem start_outcome_withCount (parse : String → Option JsNumber)
    (findOne : Option JobEntity) (st : State) (n : Nat) :
    (start parse findOne (withCount st n)).1 = (start parse findOne st).1 := by
  cases st with
  | mk jh c i p a nx =>
      cases findOne with
      | none => cases jh <;> rfl
      | some je =>
          cases jh <;>
            (simp only [start, stop, withCount]; split_ifs <;> rfl)

/-- The launch count of `executeConcurrently` does not depend on the error
counter. -/
theorem launch_withCount (findOne : Except String (Option JobEntity))
    (st : State) (n : Nat) :
    (executeConcurrently findOne (withCount st n)).1 =
      (executeConcurrently findOne st).1 := by
  rcases findOne with e | o
  · rfl
  · rcases o with _ | je <;> rfl

/-- C6: `unexpectedErrorCount` is monotonically non-decreasing across every
operation (incremented by exactly one per unexpected error) and its value
never influences scheduling: the non-counter observables of every operation,
the outcome of `start()` and the per-tick launch count are all independent
of it. -/
theorem C6_error_counter (st : State) (op : Op) (n : Nat) (ops : List Op) :
    st.unexpectedErrorCount ≤ (applyOp st op).unexpectedErrorCount ∧
    ((applyOp st op).unexpectedErrorCount = st.unexpectedErrorCount ∨
      (applyOp st op).unexpectedErrorCount = st.unexpectedErrorCount + 1) ∧
    st.unexpectedErrorCount ≤ (applyOps st ops).unexpectedErrorCount ∧
    schedView (applyOp (withCount st n) op) = schedView (applyOp st op) ∧
    (∀ parse findOne,
      (start parse findOne (withCount st n)).1 = (start parse findOne st).1) ∧
    (∀ findOne, (executeConcurrently findOne (withCount st n)).1 =
      (executeConcurrently findOne st).1) := by
  refine ⟨?_, applyOp_count st op, applyOps_count_le ops st,
    schedView_applyOp_withCount st op n,
    fun parse findOne => start_outcome_withCount parse findOne st n,
    fun findOne => launch_withCount findOne st n⟩
  rcases applyOp_count st op with h | h <;> omega

/-- C10 counterexample: `executeOnce` DOES throw.  With the job present and
an executor whose promise rejects, `executeOnce` propagates the rejection
(the executor promise is returned from the `try` block without `await`, so
the `catch` never sees it): it neither returns a failed `JobResult` nor
increments `unexpectedErrorCount`. -/
theorem C10_counterexample :
    (executeOnce (.ok (some ⟨"job", "one minute", 1, 0, none⟩))
        (fun _ => .error "executor rejected") initState).1 =
      .error "executor rejected" ∧
    (executeOnce (.ok (some ⟨"job", "one minute", 1, 0, none⟩))
        (fun _ => .error "executor rejected")
        initState).2.1.unexpectedErrorCount = 0 :=
  ⟨rfl, rfl⟩

/-- C10 amended: an error while loading the job definition is caught by
`executeOnce`, increments `unexpectedErrorCount` by exactly one and yields
status `failed`; an absent job yields `notFound`; a fulfilled executor
promise has its `JobResult` returned unchanged; but a rejected executor
promise is NOT caught: `executeOnce` rejects with that error and the
counter is not incremented. -/
theorem C10_executeOnce_amended (findOne : Except String (Option JobEntity))
    (exec : JobEntity → Except String JobResult) (st : State) :
    (∀ e, findOne = .error e →
      executeOnce findOne exec st =
        (.ok { status := .failed }, handleUnexpectedError st, [unexpectedLog e]) ∧
      (handleUnexpectedError st).unexpectedErrorCount =
        st.unexpectedErrorCount + 1) ∧
    (findOne = .ok none →
      executeOnce findOne exec st =
        (.ok { status := .notFound }, st,
          [{ message := "job not found, skip execution",
             error := .momo .jobNotFound }])) ∧
    (∀ jobEntity r, findOne = .ok (some jobEntity) → exec jobEntity = .ok r →
      executeOnce findOne exec st = (.ok r, st, [])) ∧
    (∀ jobEntity e, findOne = .ok (some jobEntity) → exec jobEntity = .error e →
      executeOnce findOne exec st = (.error e, st, [])) := by
  refine ⟨?_, ?_, ?_, ?_⟩
  · rintro e rfl
    exact ⟨rfl, rfl⟩
  · rintro rfl
    rfl
  · rintro jobEntity r rfl hr
    simp [executeOnce, hr]
  · rintro jobEntity e rfl hr
    simp [executeOnce, hr]

/-- Witness for the amended C10 at concrete inputs: a failing lookup is
caught as `failed`, a fulfilled executor result is passed through, a
rejected executor propagates. -/
theorem C10_executeOnce_amended_witness :
    executeOnce (.error "db down") (fun _ => .ok { status := .finished })
        initState =
      (.ok { status := .failed }, handleUnexpectedError initState,
        [unexpectedLog "db down"]) ∧
    executeOnce (.ok (some ⟨"job", "one minute", 1, 0, none⟩))
        (fun _ => .ok { status := .finished }) initState =
      (.ok { status := .finished }, initState, []) ∧
    executeOnce (.ok (some ⟨"job", "one minute", 1, 0, none⟩))
        (fun _ => .error "boom") initState = (.error "boom", initState, []) := by
  refine ⟨?_, ?_, ?_⟩
  · exact ((C10_executeOnce_amended (.error "db down")
      (fun _ => .ok { status := .finished }) initState).1 "db down" rfl).1
  · exact (C10_executeOnce_amended (.ok (some ⟨"job", "one minute", 1, 0, none⟩))
      (fun _ => .ok { status := .finished }) initState).2.2.1
      ⟨"job", "one minute", 1, 0, none⟩ { status := .finished } rfl rfl
  · exact (C10_executeOnce_amended (.ok (some ⟨"job", "one minute", 1, 0, none⟩))
      (fun _ => .error "boom") initState).2.2.2
      ⟨"job", "one minute", 1, 0, none⟩ "boom" rfl rfl

/-- Every enabled event-loop step preserves the stop-drain invariant. -/
theorem loop_inv_step (st st2 : Loop.LState) (e : Loop.Ev) (h : Loop.Inv st)
    (hs : Loop.step st e = some st2) : Loop.Inv st2 := by
  obtain ⟨h1, h2, h3⟩ := h
  cases e with
  | tickFire =>
      simp only [Loop.step] at hs
      split_ifs at hs with hc
      · injection hs with hs
        subst hs
        exact ⟨h1, h2, h3⟩
  | tickResume k =>
      simp only [Loop.step] at hs
      split_ifs at hs with hc
      · injection hs with hs
        subst hs
        exact ⟨h1, h2, h3⟩
  | tickResumeNotFound =>
      simp only [Loop.step] at hs
      split_ifs at hs with hc
      · injection hs with hs
        subst hs
        exact ⟨h1, h2, h3⟩
  | execSettle i =>
      simp only [Loop.step] at hs
      split_ifs at hs with hc
      · injection hs with hs
        subst hs
        refine ⟨h1, h2, ?_⟩
        intro hres
        have h4 := h3 hres
        rw [List.all_eq_true] at h4 ⊢
        intro x hx
        have h5 := h4 x hx
        simp_all
  | stopCall =>
      simp only [Loop.step] at hs
      split_ifs at hs with hc
      · injection hs with hs
        subst hs
        refine ⟨fun _ => rfl, fun _ => rfl, ?_⟩
        intro hres
        have hp : st.pending = [] := by simpa using hres
        rw [hp]
        rfl
  | stopResolve =>
      simp only [Loop.step] at hs
      split_ifs at hs with hc
      · injection hs with hs
        subst hs
        simp only [Bool.and_eq_true, Bool.not_eq_true'] at hc
        exact ⟨h1, fun _ => hc.1.1, fun _ => hc.2⟩

/-- The stop-drain invariant holds in every state reachable by a run. -/
theorem loop_inv_run (evs : List Loop.Ev) : ∀ st st2 : Loop.LState,
    Loop.run st evs = some st2 → Loop.Inv st → Loop.Inv st2 := by
  induction evs with
  | nil =>
      intro st st2 h hi
      simp only [Loop.run] at h
      injection h with h
      subst h
      exact hi
  | cons e es ih =>
      intro st st2 h hi
      simp only [Loop.run] at h
      cases hs : Loop.step st e with
      | none => rw [hs] at h; exact Option.noConfusion h
      | some st1 =>
          rw [hs] at h
          exact ih st1 st2 h (loop_inv_step st st1 e hi hs)

/-- C2 counterexample: in the event-loop model, after `start` the timer
fires and `executeConcurrently` suspends at `await findOne`; `stop()` then
clears the interval, sees no pending executions and resolves; yet the
suspended tick subsequently launches an executor invocation — a new
invocation started by the scheduler after `stop()` resolved, with no
`start()` in between. -/
theorem C2_counterexample :
    ((Loop.run Loop.initLState [.tickFire, .stopCall]).map
        (fun st => (st.stopResolved, st.started.length))) = some (true, 0) ∧
    ((Loop.run Loop.initLState [.tickFire, .stopCall, .tickResume 1]).map
        (fun st => (st.stopResolved, st.started.length))) = some (true, 1) := by
  constructor <;> rfl

/-- C2 amended: after `stop()` is called the interval timer is disarmed and
no further tick can fire until `start()` is called again, and whenever
`stop()` has resolved every execution that was pending at the time of the
call has settled; a tick already in flight when `stop()` was called may
still launch invocations afterwards (see the counterexample). -/
theorem C2_stop_drains_amended (evs : List Loop.Ev) (st2 : Loop.LState)
    (h : Loop.run Loop.initLState evs = some st2) :
    (st2.stopCalled = true →
      st2.timerArmed = false ∧ Loop.step st2 .tickFire = none) ∧
    (st2.stopResolved = true →
      st2.stopAwaitSet.all (st2.settled.contains ·) = true) := by
  have hinit : Loop.Inv Loop.initLState := by
    refine ⟨?_, ?_, ?_⟩ <;> (intro hh; simp [Loop.initLState] at hh)
  have hi := loop_inv_run evs Loop.initLState st2 h hinit
  obtain ⟨h1, h2, h3⟩ := hi
  refine ⟨?_, h3⟩
  intro hc
  have ht := h1 hc
  exact ⟨ht, by simp [Loop.step, ht]⟩

/-- Witness for the amended C2 on a concrete run: fire, launch two
executions, call `stop`, settle both, resolve `stop`. -/
theorem C2_stop_drains_amended_witness :
    ((⟨false, 0, [], [0, 1], [1, 0], true, [0, 1], true, 2⟩ :
        Loop.LState).stopCalled = true →
      (⟨false, 0, [], [0, 1], [1, 0], true, [0, 1], true, 2⟩ :
          Loop.LState).timerArmed = false ∧
      Loop.step
        (⟨false, 0, [], [0, 1], [1, 0], true, [0, 1], true, 2⟩ : Loop.LState)
        .tickFire = none) ∧
    ((⟨false, 0, [], [0, 1], [1, 0], true, [0, 1], true, 2⟩ :
        Loop.LState).stopResolved = true →
      (⟨false, 0, [], [0, 1], [1, 0], true, [0, 1], true, 2⟩ :
          Loop.LState).stopAwaitSet.all
        ((⟨false, 0, [], [0, 1], [1, 0], true, [0, 1], true, 2⟩ :
            Loop.LState).settled.contains ·) = true) :=
  C2_stop_drains_amended
    [.tickFire, .tickResume 2, .stopCall, .execSettle 0, .execSettle 1,
      .stopResolve]
    ⟨false, 0, [], [0, 1], [1, 0], true, [0, 1], true, 2⟩ (by decide)

/-- C7: `MongoSchedule.connect` returns a schedule carrying the freshly
generated `scheduleId`, and its effect trace creates the ledger entry
(`addSchedule` with that id) after connecting and before starting the
schedule ping, all before returning; `disconnect` cancels all jobs, then
stops the ping — which deletes this schedule's ledger entry — and only then
closes the database connection. -/
theorem C7_connect_disconnect_order (sid : String) :
    (MongoSchedule.connect sid).1.scheduleId = sid ∧
    Momo.precedes .connectDb (.addSchedule sid) (MongoSchedule.connect sid).2 ∧
    Momo.precedes (.addSchedule sid) (.pingStart sid)
      (MongoSchedule.connect sid).2 ∧
    Momo.precedes .cancelJobs (.deleteScheduleEntry sid)
      (MongoSchedule.disconnect { scheduleId := sid }) ∧
    Momo.precedes (.deleteScheduleEntry sid) .closeDb
      (MongoSchedule.disconnect { scheduleId := sid }) :=
  ⟨rfl, ⟨0, 1, by omega, rfl, rfl⟩, ⟨1, 2, by omega, rfl, rfl⟩,
    ⟨0, 1, by omega, rfl, rfl⟩, ⟨1, 2, by omega, rfl, rfl⟩⟩

/-- A successful tick body only updates `wasActive`: run count and timer are
untouched. -/
theorem ping_tickBody_ok (st st1 : Ping.State) (d : Ping.Deps)
    (h : Ping.tickBody st d = .ok st1) :
    st1.ticksRun = st.ticksRun ∧ st1.timerArmed = st.timerArmed := by
  rcases d with ⟨ia, sa, pg, dd⟩
  rcases ia with e | active
  · simp [Ping.tickBody] at h
  · simp only [Ping.tickBody] at h
    rcases hsa : (if active && !st.wasActive then sa else Except.ok ()) with
        e | u <;> rw [hsa] at h
    · exact Except.noConfusion h
    · rcases pg with e | u2
      · exact Except.noConfusion h
      · rcases dd with e | u3
        · exact Except.noConfusion h
        · injection h with h
          subst h
          exact ⟨rfl, rfl⟩

/-- Each ping tick runs exactly once, successful or not. -/
theorem ping_tick_ticksRun (st : Ping.State) (d : Ping.Deps) :
    (Ping.tick st d).1.ticksRun = st.ticksRun + 1 := by
  cases h : Ping.tickBody st d with
  | error e => simp [Ping.tick, h]
  | ok st1 => simp [Ping.tick, h, (ping_tickBody_ok st st1 d h).1]

/-- The ping loop performs one tick per scheduled interval, regardless of
how many ticks fail. -/
theorem ping_loop_ticksRun (ds : List Ping.Deps) : ∀ st : Ping.State,
    (Ping.loop st ds).1.ticksRun = st.ticksRun + ds.length := by
  induction ds with
  | nil => intro st; rfl
  | cons d ds ih =>
      intro st
      have h1 := ping_tick_ticksRun st d
      have h2 := ih (Ping.tick st d).1
      simp only [Ping.loop, List.length_cons]
      omega

/-- C8: a `SchedulePing` tick never throws — a store error anywhere in its
body is caught, logged with exactly the message "Pinging or cleaning the
Schedules repository failed", the timer stays armed, and the loop continues
to run one tick per interval afterwards. -/
theorem C8_ping_tick_never_throws (st : Ping.State) (d : Ping.Deps)
    (e : String) (ds : List Ping.Deps)
    (h : Ping.tickBody st d = .error e) :
    Ping.tick st d = ({ st with ticksRun := st.ticksRun + 1 },
      [Ping.pingFailedMessage]) ∧
    (Ping.tick st d).1.timerArmed = st.timerArmed ∧
    (Ping.loop st ds).1.ticksRun = st.ticksRun + ds.length := by
  refine ⟨?_, ?_, ping_loop_ticksRun ds st⟩
  · simp [Ping.tick, h]
  · simp [Ping.tick, h]

/-- Witness for C8: a tick whose heartbeat write rejects is caught and
logged, and a two-tick loop still runs both ticks. -/
theorem C8_ping_tick_never_throws_witness :
    Ping.tick ⟨true, false, 0⟩ ⟨.ok true, .ok (), .error "db down", .ok ()⟩ =
      (⟨true, false, 1⟩, [Ping.pingFailedMessage]) ∧
    (Ping.tick ⟨true, false, 0⟩
        ⟨.ok true, .ok (), .error "db down", .ok ()⟩).1.timerArmed = true ∧
    (Ping.loop ⟨true, false, 0⟩
        [⟨.ok true, .ok (), .error "db down", .ok ()⟩,
         ⟨.ok true, .ok (), .ok (), .ok ()⟩]).1.ticksRun = 0 + 2 :=
  C8_ping_tick_never_throws ⟨true, false, 0⟩
    ⟨.ok true, .ok (), .error "db down", .ok ()⟩ "db down"
    [⟨.ok true, .ok (), .error "db down", .ok ()⟩,
     ⟨.ok true, .ok (), .ok (), .ok ()⟩] rfl

/-- C9: `connect` is idempotent.  If the `momo` connection already exists,
`connect` returns it and leaves the state untouched (no new connection, no
index creation); and in general a second `connect` returns exactly what the
first one produced, with no further state change. -/
theorem C9_connect_idempotent (st : Conn.State) :
    (Conn.isConnected st = true →
      Conn.connect st = (Conn.getConnection st, st)) ∧
    Conn.connect (Conn.connect st).2 = ((Conn.connect st).1, (Conn.connect st).2) := by
  constructor
  · intro h
    simp [Conn.connect, h]
  · by_cases h : Conn.isConnected st
    · simp [Conn.connect, h]
    · simp only [Conn.connect, h, if_false, if_neg]
      have h2 : Conn.isConnected
          ⟨(Conn.connectionName, st.nextConnectionId) :: st.connections,
            st.indexCreations + 2, st.nextConnectionId + 1⟩ = true := by
        simp [Conn.isConnected, List.lookup]
      simp [h2, Conn.getConnection, List.lookup]

/-- Witness for C9: with the `momo` connection present, `connect` returns it
unchanged. -/
theorem C9_connect_idempotent_witness :
    Conn.connect ⟨[("momo", 7)], 2, 8⟩ =
      (Conn.getConnection ⟨[("momo", 7)], 2, 8⟩, ⟨[("momo", 7)], 2, 8⟩) :=
  (C9_connect_idempotent ⟨[("momo", 7)], 2, 8⟩).1 (by decide)
